import Mathlib

/-!
Verification development for `sincera_data_processor.py`.

The development shallowly embeds the three components of the source:
the retrying fetch routine `fetch_publisher_metadata` (lines 56-122),
the sliding-window `RateLimiter` (lines 25-54), and the per-row loop of
`process_excel_file` (lines 151-183).  Remote HTTP traffic is modelled
as an environment assigning an outcome to each attempt; wall-clock time
is modelled as explicit rational timestamps; Python exceptions that the
source lets escape are modelled as a distinguished `raised` outcome.
-/

/-- A JSON value, as produced by `response.json()` in the source. -/
inductive Json where
  | null : Json
  | bool : Bool → Json
  | num : ℚ → Json
  | str : String → Json
  | arr : List Json → Json
  | obj : List (String × Json) → Json

/-- A Python scalar as it can appear in an input cell or as an identifier:
an integer, a string, or Python `None`. -/
inductive PyVal where
  | int : ℤ → PyVal
  | str : String → PyVal
  | pynone : PyVal

/-- Whitespace as stripped by Python's `int()` conversion of a string. -/
def isPySpace (c : Char) : Bool :=
  c = ' ' || c = '\t' || c = '\n' || c = '\r'

/-- Strip leading and trailing whitespace from a character list. -/
def trimChars (cs : List Char) : List Char :=
  ((cs.dropWhile isPySpace).reverse.dropWhile isPySpace).reverse

/-- Accumulate decimal digits; fails on any non-digit character. -/
def digitsToNatAux : List Char → ℕ → Option ℕ
  | [], acc => some acc
  | c :: cs, acc =>
    if c.isDigit then digitsToNatAux cs (acc * 10 + (c.toNat - 48)) else Option.none

/-- Parse a non-empty all-digit character list as a natural number. -/
def digitsToNat : List Char → Option ℕ
  | [] => Option.none
  | c :: cs => digitsToNatAux (c :: cs) 0

/-- Python's `int()` applied to a string: optional surrounding whitespace,
optional sign, then decimal digits; `none` models the `ValueError` raised
on anything else (source line 66 and line 99 call `int(...)`). -/
def strToInt (s : String) : Option ℤ :=
  match trimChars s.toList with
  | '-' :: cs => (digitsToNat cs).map (fun n => -(n : ℤ))
  | '+' :: cs => (digitsToNat cs).map (fun n => (n : ℤ))
  | cs => (digitsToNat cs).map (fun n => (n : ℤ))

/-- Python's `int(identifier)` on a cell value (source line 66): integers
pass through, strings are parsed, `None` raises `TypeError` (modelled as
`none`). -/
def pyInt : PyVal → Option ℤ
  | .int n => some n
  | .str s => strToInt s
  | .pynone => Option.none

/-- Python truthiness of a cell value, as tested by `if identifier:` on
source line 170: zero integers, empty strings and `None` are falsy. -/
def pyTruthy : PyVal → Bool
  | .int n => n != 0
  | .str s => s != ""
  | .pynone => false

/-- The fixed field set `FIELDS` of the source (lines 11-17). -/
def FIELDS : List String :=
  ["publisher_id", "name", "visit_enabled", "status", "primary_supply_type",
   "pub_description", "categories", "slug", "avg_ads_to_content_ratio",
   "avg_ads_in_view", "avg_ad_refresh", "total_unique_gpids",
   "id_absorption_rate", "avg_page_weight", "avg_cpu", "total_supply_paths",
   "reseller_count", "owner_domain", "updated_at"]

/-- `DEFAULT_RETRY_DELAY = 2` (source line 18). -/
def DEFAULT_RETRY_DELAY : ℤ := 2

/-- `MAX_RETRIES = 3` (source line 19). -/
def MAX_RETRIES : ℕ := 3

/-- The all-null record `{field: None for field in FIELDS}` built on every
failure path of the source (lines 71, 78, 91, 111, 120, 122). -/
def allNullRecord : List (String × Json) :=
  FIELDS.map (fun f => (f, Json.null))

/-- `data.get(field, None)`: look a key up in a JSON object's key/value
list, yielding `null` when absent (source line 93). -/
def jsonLookup (kvs : List (String × Json)) (k : String) : Json :=
  match kvs.find? (fun p => p.1 == k) with
  | some p => p.2
  | Option.none => Json.null

/-- `{field: data.get(field, None) for field in FIELDS}` (source line 93). -/
def projectFields (kvs : List (String × Json)) : List (String × Json) :=
  FIELDS.map (fun f => (f, jsonLookup kvs f))

/-- Replace the value stored under key `k` (models the dict assignment
`result["categories"] = ...` on source line 95). -/
def setField (r : List (String × Json)) (k : String) (v : Json) : List (String × Json) :=
  r.map (fun p => if p.1 == k then (p.1, v) else p)

/-- Extract the underlying strings of a JSON array; `none` models the
`TypeError` raised by `"; ".join` when an element is not a string. -/
def asStrings : List Json → Option (List String)
  | [] => some []
  | Json.str s :: rest => (asStrings rest).map (fun ss => s :: ss)
  | _ => Option.none

/-- Source lines 94-95: if the projected `categories` value is a list,
join it with `"; "`; `none` models the `TypeError` on non-string
elements. -/
def applyCats (r : List (String × Json)) : Option (List (String × Json)) :=
  match jsonLookup r "categories" with
  | Json.arr xs =>
    match asStrings xs with
    | some ss => some (setField r "categories" (Json.str (String.intercalate "; " ss)))
    | Option.none => Option.none
  | _ => some r

/-- What one network attempt can produce: an HTTP response (status,
optional `Retry-After` header, parsed JSON body) or a transport-level
failure (`requests.exceptions.RequestException`, source line 113). -/
inductive HttpAttempt where
  | response : ℕ → Option String → Json → HttpAttempt
  | transportError : HttpAttempt

/-- How a call to the fetch routine ends: a returned record, or a Python
exception escaping to the caller. -/
inductive FetchOutcome where
  | ok : List (String × Json) → FetchOutcome
  | raised : FetchOutcome

/-- Result of running the fetch routine: its outcome, the number of
network requests issued, and the sleeps performed (in seconds, in
order). -/
structure FetchResult where
  outcome : FetchOutcome
  attempts : ℕ
  sleeps : List ℤ

/-- `int(response.headers.get('Retry-After', DEFAULT_RETRY_DELAY))`
(source line 99): an absent header defaults to 2, a present header is
parsed by `int()`; `none` models the uncaught `ValueError` on a
non-numeric header. -/
def parseRetryAfter : Option String → Option ℤ
  | Option.none => some DEFAULT_RETRY_DELAY
  | some s => strToInt s

/-- Source lines 93-96 applied to the selected data object: projection
onto `FIELDS` followed by the categories join; `raised` models the
`AttributeError` when the value is not a dict and the `TypeError` when
`categories` holds a non-string. -/
def handleObj (data : Json) : FetchOutcome :=
  match data with
  | Json.obj kvs =>
    match applyCats (projectFields kvs) with
    | some r => FetchOutcome.ok r
    | Option.none => FetchOutcome.raised
  | _ => FetchOutcome.raised

/-- Source lines 85-96, the HTTP 200 branch: an empty list body yields
the all-null record, a non-empty list contributes its first element,
anything else is used directly, and the result is projected. -/
def handle200 (body : Json) : FetchOutcome :=
  match body with
  | Json.arr [] => FetchOutcome.ok allNullRecord
  | Json.arr (x :: _) => handleObj x
  | Json.null => handleObj Json.null
  | Json.bool b => handleObj (Json.bool b)
  | Json.num q => handleObj (Json.num q)
  | Json.str s => handleObj (Json.str s)
  | Json.obj kvs => handleObj (Json.obj kvs)

/-- The retry loop of `fetch_publisher_metadata` (source lines 80-122).
`env i` is the outcome of the `i`-th network attempt; the second
argument is the attempt index `attempt`, the third the number of loop
iterations remaining (`MAX_RETRIES - attempt`).  The guard `0 < k`
mirrors `attempt < MAX_RETRIES - 1` on line 115; falling off the loop
returns the all-null record of line 122. -/
def fetchLoop (env : ℕ → HttpAttempt) : ℕ → ℕ → FetchResult
  | _, 0 => ⟨FetchOutcome.ok allNullRecord, 0, []⟩
  | i, k + 1 =>
    match env i with
    | HttpAttempt.transportError =>
      if 0 < k then
        let r := fetchLoop env (i + 1) k
        ⟨r.outcome, r.attempts + 1, DEFAULT_RETRY_DELAY :: r.sleeps⟩
      else ⟨FetchOutcome.ok allNullRecord, 1, []⟩
    | HttpAttempt.response status ra body =>
      if status = 200 then ⟨handle200 body, 1, []⟩
      else if status = 429 then
        match parseRetryAfter ra with
        | Option.none => ⟨FetchOutcome.raised, 1, []⟩
        | some n =>
          if n < 0 then ⟨FetchOutcome.raised, 1, []⟩
          else
            let r := fetchLoop env (i + 1) k
            ⟨r.outcome, r.attempts + 1, n :: r.sleeps⟩
      else ⟨FetchOutcome.ok allNullRecord, 1, []⟩

/-- `fetch_publisher_metadata(identifier, id_type)` (source lines 56-122)
run against the attempt environment `env`.  An `id`-kind identifier must
survive `int()` (lines 64-71); an unrecognized kind short-circuits
(lines 76-78); a negative parsed `Retry-After` would make `time.sleep`
raise `ValueError`, modelled inside `fetchLoop`. -/
def fetch_publisher_metadata (identifier : PyVal) (id_type : String)
    (env : ℕ → HttpAttempt) : FetchResult :=
  if id_type = "id" then
    match pyInt identifier with
    | some _ => fetchLoop env 0 MAX_RETRIES
    | Option.none => ⟨FetchOutcome.ok allNullRecord, 0, []⟩
  else if id_type = "domain" then
    fetchLoop env 0 MAX_RETRIES
  else ⟨FetchOutcome.ok allNullRecord, 0, []⟩

/-- An attempt outcome whose data the source can digest without an
uncaught exception: transport failures and non-200/429 statuses always,
a 429 only when its `Retry-After` parses to a non-negative integer (or
is absent), and a 200 only when the selected object is a dict whose
`categories` value, if a list, holds only strings. -/
def GoodObj : Json → Bool
  | Json.obj kvs =>
    match jsonLookup kvs "categories" with
    | Json.arr xs => (asStrings xs).isSome
    | _ => true
  | _ => false

/-- Digestibility of a 200 body (see `GoodObj`). -/
def GoodBody : Json → Bool
  | Json.arr [] => true
  | Json.arr (x :: _) => GoodObj x
  | Json.null => GoodObj Json.null
  | Json.bool b => GoodObj (Json.bool b)
  | Json.num q => GoodObj (Json.num q)
  | Json.str s => GoodObj (Json.str s)
  | Json.obj kvs => GoodObj (Json.obj kvs)

/-- Digestibility of one attempt outcome (see `GoodObj`). -/
def GoodAttempt : HttpAttempt → Bool
  | HttpAttempt.transportError => true
  | HttpAttempt.response status ra body =>
    if status = 200 then GoodBody body
    else if status = 429 then
      match parseRetryAfter ra with
      | some n => decide (0 ≤ n)
      | Option.none => false
    else true

/-- Whether an attempt outcome is an HTTP 200 response. -/
def Is200 : HttpAttempt → Bool
  | HttpAttempt.response s _ _ => s == 200
  | HttpAttempt.transportError => false

/-- A well-behaved 429 attempt, together with the sleep the source would
perform for it: the status is 429 and the `Retry-After` header parses to
a non-negative integer (absent defaulting to 2). -/
def is429Delay : HttpAttempt → Option ℤ
  | HttpAttempt.transportError => Option.none
  | HttpAttempt.response s ra _ =>
    if s = 429 then
      match parseRetryAfter ra with
      | some n => if n < 0 then Option.none else some n
      | Option.none => Option.none
    else Option.none

/-- The `RateLimiter` state (source lines 25-33): the configured cap and
period, and the deque of recorded timestamps.  Time is modelled by
rational numbers. -/
structure RateLimiter where
  max_requests : ℕ
  period_seconds : ℚ
  request_timestamps : List ℚ

/-- The eviction loop of `wait_if_needed` (source lines 42-43): pop
timestamps from the front while they satisfy
`ts[0] <= current_time - period_seconds`. -/
def evictOld (period now : ℚ) : List ℚ → List ℚ
  | [] => []
  | t :: ts => if t ≤ now - period then evictOld period now ts else t :: ts

/-- The sleep performed by `wait_if_needed` (source lines 45-50): when
the retained count reaches the cap, sleep
`request_timestamps[0] - (current_time - period_seconds)` if positive.
(The empty-list case with `maxR = 0` is where Python would raise
`IndexError`; all theorems assume `1 ≤ maxR`, under which the list is
provably non-empty whenever the branch is taken.) -/
def waitDelay (maxR : ℕ) (period now : ℚ) : List ℚ → ℚ
  | [] => 0
  | t :: ts =>
    if maxR ≤ ts.length + 1 then
      if 0 < t - (now - period) then t - (now - period) else 0
    else 0

/-- `RateLimiter.wait_if_needed` (source lines 35-50) called at instant
`now`: returns the mutated limiter together with the instant at which
the call returns (i.e. `now` plus the slept duration). -/
def wait_if_needed (rl : RateLimiter) (now : ℚ) : RateLimiter × ℚ :=
  let ts := evictOld rl.period_seconds now rl.request_timestamps
  (⟨rl.max_requests, rl.period_seconds, ts⟩,
   now + waitDelay rl.max_requests rl.period_seconds now ts)

/-- `RateLimiter.record_request` (source lines 52-54) called at instant
`now`. -/
def record_request (rl : RateLimiter) (now : ℚ) : RateLimiter :=
  ⟨rl.max_requests, rl.period_seconds, rl.request_timestamps ++ [now]⟩

/-- The number of recorded timestamps whose age at instant `now` is
strictly below `period`. -/
def recentCount (period now : ℚ) (ts : List ℚ) : ℕ :=
  (ts.filter (fun t => decide (now - t < period))).length

/-- The number of recorded timestamps of `rl` with age strictly below
`rl.period_seconds` at instant `now`: the quantity the sliding-window
invariant bounds. -/
def countRecent (rl : RateLimiter) (now : ℚ) : ℕ :=
  recentCount rl.period_seconds now rl.request_timestamps

/-- A run of the client protocol used by `process_excel_file`: each list
entry is a non-negative delay after which the next request is issued;
for each request the caller calls `wait_if_needed` and then, at the very
instant it returns, `record_request` (source lines 152 and 171).
Returns the final limiter state and the final clock value. -/
def runRequests (rl : RateLimiter) (now : ℚ) : List ℚ → RateLimiter × ℚ
  | [] => (rl, now)
  | d :: ds =>
    runRequests
      (record_request (wait_if_needed rl (now + d)).1 (wait_if_needed rl (now + d)).2)
      (wait_if_needed rl (now + d)).2 ds

/-- One input row of `process_excel_file`: the raw `publisher_id` and
`domain` cells, with `Option.none` standing for a missing column value
or `NaN` (so that `pd.notna` is `Option.isSome`). -/
structure Row where
  publisher_id : Option PyVal
  domain : Option PyVal

/-- The identifier-selection chain of source lines 158-166: the domain
cell is taken when its column exists and the value is not `NaN`,
otherwise the publisher-id cell under the same proviso. -/
def rowSelection (hasPub hasDom : Bool) (row : Row) : Option (PyVal × String) :=
  match (if hasDom then row.domain else Option.none) with
  | some d => some (d, "domain")
  | Option.none =>
    match (if hasPub then row.publisher_id else Option.none) with
    | some p => some (p, "id")
    | Option.none => Option.none

/-- The identifier actually fetched: the selected cell survives the
truthiness test `if identifier:` of source line 170. -/
def rowUsed (hasPub hasDom : Bool) (row : Row) : Option (PyVal × String) :=
  match rowSelection hasPub hasDom row with
  | some (v, t) => if pyTruthy v then some (v, t) else Option.none
  | Option.none => Option.none

/-- One output row: the fetched (or all-null) record, the two
passthrough fields of source lines 178-181 (outer `Option` = column
absent, inner = the raw cell), and whether `record_request` and the
fetch were performed for this row. -/
structure RowResult where
  record : List (String × Json)
  input_publisher_id : Option (Option PyVal)
  input_domain : Option (Option PyVal)
  requested : Bool

/-- The body of the per-row loop of `process_excel_file` (source lines
154-183) for one row, against attempt environment `env`; `Except.error`
models a Python exception escaping from the fetch and aborting the
run. -/
def processRow (hasPub hasDom : Bool) (env : ℕ → HttpAttempt) (row : Row) :
    Except Unit RowResult :=
  match rowUsed hasPub hasDom row with
  | some (v, t) =>
    match (fetch_publisher_metadata v t env).outcome with
    | FetchOutcome.ok rec =>
      Except.ok ⟨rec, (if hasPub then some row.publisher_id else Option.none),
                 (if hasDom then some row.domain else Option.none), true⟩
    | FetchOutcome.raised => Except.error ()
  | Option.none =>
    Except.ok ⟨allNullRecord, (if hasPub then some row.publisher_id else Option.none),
               (if hasDom then some row.domain else Option.none), false⟩

/-- The per-row loop of `process_excel_file` (source lines 151-183) over
a list of rows starting at row index `i`; `envs j` is the attempt
environment seen by row `j`.  An escaping exception aborts the whole
loop, discarding all accumulated results. -/
def processRows (hasPub hasDom : Bool) (envs : ℕ → ℕ → HttpAttempt) :
    List Row → ℕ → Except Unit (List RowResult)
  | [], _ => Except.ok []
  | row :: rest, i =>
    match processRow hasPub hasDom (envs i) row with
    | Except.ok r =>
      match processRows hasPub hasDom envs rest (i + 1) with
      | Except.ok rs => Except.ok (r :: rs)
      | Except.error e => Except.error e
    | Except.error e => Except.error e

/-- The first element of a list body, or the body itself when it is not
a list (source lines 86-88 after the empty-list check). -/
def firstElem : Json → Json
  | Json.arr (x :: _) => x
  | Json.arr [] => Json.arr []
  | Json.null => Json.null
  | Json.bool b => Json.bool b
  | Json.num q => Json.num q
  | Json.str s => Json.str s
  | Json.obj kvs => Json.obj kvs

/-- Environment whose every attempt is a 429 carrying a non-numeric
`Retry-After` header. -/
def envBadRetryAfter : ℕ → HttpAttempt :=
  fun _ => HttpAttempt.response 429 (some "soon") Json.null

/-- Environment whose every attempt is a 429 carrying a different
non-numeric `Retry-After` header. -/
def envBadRetryAfterB : ℕ → HttpAttempt :=
  fun _ => HttpAttempt.response 429 (some "later") Json.null

/-- Environment delivering a 200 whose object carries a categories list
containing a number. -/
def envBadCats : ℕ → HttpAttempt :=
  fun _ => HttpAttempt.response 200 Option.none
    (Json.obj [("categories", Json.arr [Json.num 1])])

/-- Environment in which every attempt fails at the transport level. -/
def envTransport : ℕ → HttpAttempt :=
  fun _ => HttpAttempt.transportError

/-- The key/value list of the spec's round-trip 200 example. -/
def acmeKvs : List (String × Json) :=
  [("publisher_id", Json.num 7), ("name", Json.str "Acme"),
   ("categories", Json.arr [Json.str "News", Json.str "Tech"])]

/-- Environment delivering the spec's round-trip 200 example. -/
def envAcme : ℕ → HttpAttempt :=
  fun _ => HttpAttempt.response 200 Option.none (Json.obj acmeKvs)

/-- Two-row batch whose rows both carry a valid publisher id. -/
def rowsCex : List Row :=
  [⟨some (PyVal.int 1), Option.none⟩, ⟨some (PyVal.int 2), Option.none⟩]

/-- Per-row environments: row 0 receives a terminal 500, every later row
a 429 with a non-numeric `Retry-After` header. -/
def envsCex : ℕ → ℕ → HttpAttempt :=
  fun j _ =>
    if j = 0 then HttpAttempt.response 500 Option.none Json.null
    else HttpAttempt.response 429 (some "zzz") Json.null

/-- Environment whose every attempt is a 429 with `Retry-After: 5`. -/
def env429five : ℕ → HttpAttempt :=
  fun _ => HttpAttempt.response 429 (some "5") Json.null

/-- Environment whose every attempt is a terminal 404. -/
def env404 : ℕ → HttpAttempt :=
  fun _ => HttpAttempt.response 404 Option.none Json.null

/-- Per-row environments in which every attempt of every row fails at the
transport level. -/
def envsTransport : ℕ → ℕ → HttpAttempt :=
  fun _ _ => HttpAttempt.transportError

/-- A one-row batch with a valid publisher id. -/
def rowsOne : List Row :=
  [⟨some (PyVal.int 1), Option.none⟩]

/-! ## Helper lemmas about the fetch routine -/

lemma fetchLoop_zero (env : ℕ → HttpAttempt) (i : ℕ) :
    fetchLoop env i 0 = ⟨FetchOutcome.ok allNullRecord, 0, []⟩ := rfl

lemma fetchLoop_200 (env : ℕ → HttpAttempt) (i k : ℕ) (s : ℕ) (ra : Option String)
    (body : Json) (he : env i = HttpAttempt.response s ra body) (hs : s = 200) :
    fetchLoop env i (k + 1) = ⟨handle200 body, 1, []⟩ := by
  subst hs
  simp [fetchLoop, he]

lemma fetchLoop_429 (env : ℕ → HttpAttempt) (i k : ℕ) (ra : Option String)
    (body : Json) (n : ℤ) (he : env i = HttpAttempt.response 429 ra body)
    (hp : parseRetryAfter ra = some n) (hn : ¬ n < 0) :
    fetchLoop env i (k + 1) =
      ⟨(fetchLoop env (i + 1) k).outcome, (fetchLoop env (i + 1) k).attempts + 1,
       n :: (fetchLoop env (i + 1) k).sleeps⟩ := by
  simp [fetchLoop, he, hp, hn]

lemma fetchLoop_429_raise (env : ℕ → HttpAttempt) (i k : ℕ) (ra : Option String)
    (body : Json) (he : env i = HttpAttempt.response 429 ra body)
    (hp : parseRetryAfter ra = Option.none) :
    fetchLoop env i (k + 1) = ⟨FetchOutcome.raised, 1, []⟩ := by
  simp [fetchLoop, he, hp]

lemma fetchLoop_other (env : ℕ → HttpAttempt) (i k : ℕ) (s : ℕ) (ra : Option String)
    (body : Json) (he : env i = HttpAttempt.response s ra body)
    (h200 : ¬ s = 200) (h429 : ¬ s = 429) :
    fetchLoop env i (k + 1) = ⟨FetchOutcome.ok allNullRecord, 1, []⟩ := by
  simp [fetchLoop, he, h200, h429]

lemma fetchLoop_transport (env : ℕ → HttpAttempt) (i k : ℕ)
    (he : env i = HttpAttempt.transportError) (hk : 0 < k) :
    fetchLoop env i (k + 1) =
      ⟨(fetchLoop env (i + 1) k).outcome, (fetchLoop env (i + 1) k).attempts + 1,
       DEFAULT_RETRY_DELAY :: (fetchLoop env (i + 1) k).sleeps⟩ := by
  simp [fetchLoop, he, hk]

lemma fetchLoop_transport_zero (env : ℕ → HttpAttempt) (i : ℕ)
    (he : env i = HttpAttempt.transportError) :
    fetchLoop env i (0 + 1) = ⟨FetchOutcome.ok allNullRecord, 1, []⟩ := by
  simp [fetchLoop, he]

lemma jsonLookup_projectFields_categories (kvs : List (String × Json)) :
    jsonLookup (projectFields kvs) "categories" = jsonLookup kvs "categories" := rfl

lemma asStrings_map_str (ss : List String) : asStrings (ss.map Json.str) = some ss := by
  induction ss with
  | nil => rfl
  | cons s ss ih => simp [asStrings, ih]

lemma handleObj_of_strCats (kvs : List (String × Json)) (ss : List String)
    (hc : jsonLookup kvs "categories" = Json.arr (ss.map Json.str)) :
    handleObj (Json.obj kvs) =
      FetchOutcome.ok
        (setField (projectFields kvs) "categories"
          (Json.str (String.intercalate "; " ss))) := by
  simp [handleObj, applyCats, jsonLookup_projectFields_categories, hc, asStrings_map_str]

lemma handleObj_of_nonlist_cats (kvs : List (String × Json))
    (hc : ∀ xs, jsonLookup kvs "categories" ≠ Json.arr xs) :
    handleObj (Json.obj kvs) = FetchOutcome.ok (projectFields kvs) := by
  cases hcv : jsonLookup kvs "categories" with
  | arr xs => exact absurd hcv (hc xs)
  | null => simp [handleObj, applyCats, jsonLookup_projectFields_categories, hcv]
  | bool b => simp [handleObj, applyCats, jsonLookup_projectFields_categories, hcv]
  | num q => simp [handleObj, applyCats, jsonLookup_projectFields_categories, hcv]
  | str s => simp [handleObj, applyCats, jsonLookup_projectFields_categories, hcv]
  | obj o => simp [handleObj, applyCats, jsonLookup_projectFields_categories, hcv]

lemma handleObj_ok_of_good (d : Json) (h : GoodObj d = true) :
    ∃ r, handleObj d = FetchOutcome.ok r := by
  cases d with
  | obj kvs =>
    cases hcv : jsonLookup kvs "categories" with
    | arr xs =>
      rw [GoodObj, hcv] at h
      obtain ⟨ss, hss⟩ := Option.isSome_iff_exists.mp h
      exact ⟨setField (projectFields kvs) "categories"
              (Json.str (String.intercalate "; " ss)),
        by simp [handleObj, applyCats, jsonLookup_projectFields_categories, hcv, hss]⟩
    | null =>
      exact ⟨projectFields kvs,
        by simp [handleObj, applyCats, jsonLookup_projectFields_categories, hcv]⟩
    | bool b =>
      exact ⟨projectFields kvs,
        by simp [handleObj, applyCats, jsonLookup_projectFields_categories, hcv]⟩
    | num q =>
      exact ⟨projectFields kvs,
        by simp [handleObj, applyCats, jsonLookup_projectFields_categories, hcv]⟩
    | str s =>
      exact ⟨projectFields kvs,
        by simp [handleObj, applyCats, jsonLookup_projectFields_categories, hcv]⟩
    | obj o =>
      exact ⟨projectFields kvs,
        by simp [handleObj, applyCats, jsonLookup_projectFields_categories, hcv]⟩
  | null => simp [GoodObj] at h
  | bool b => simp [GoodObj] at h
  | num q => simp [GoodObj] at h
  | str s => simp [GoodObj] at h
  | arr xs => simp [GoodObj] at h

lemma handle200_ok_of_good (body : Json) (h : GoodBody body = true) :
    ∃ r, handle200 body = FetchOutcome.ok r := by
  cases body with
  | arr xs =>
    cases xs with
    | nil => exact ⟨allNullRecord, rfl⟩
    | cons x rest =>
      rw [GoodBody] at h
      simpa [handle200] using handleObj_ok_of_good x h
  | null => rw [GoodBody] at h; simpa [handle200] using handleObj_ok_of_good Json.null h
  | bool b => rw [GoodBody] at h; simpa [handle200] using handleObj_ok_of_good (Json.bool b) h
  | num q => rw [GoodBody] at h; simpa [handle200] using handleObj_ok_of_good (Json.num q) h
  | str s => rw [GoodBody] at h; simpa [handle200] using handleObj_ok_of_good (Json.str s) h
  | obj kvs => rw [GoodBody] at h; simpa [handle200] using handleObj_ok_of_good (Json.obj kvs) h

lemma fetchLoop_ok_of_good (env : ℕ → HttpAttempt) :
    ∀ (k i : ℕ), (∀ j, j < k → GoodAttempt (env (i + j)) = true) →
      ∃ r, (fetchLoop env i k).outcome = FetchOutcome.ok r := by
  intro k
  induction k with
  | zero => intro i _; exact ⟨allNullRecord, rfl⟩
  | succ k ih =>
    intro i h
    have h0 : GoodAttempt (env i) = true := by simpa using h 0 (Nat.succ_pos k)
    have hrest : ∀ j, j < k → GoodAttempt (env (i + 1 + j)) = true := by
      intro j hj
      have hh := h (j + 1) (by omega)
      rwa [show i + (j + 1) = i + 1 + j by omega] at hh
    cases he : env i with
    | transportError =>
      by_cases hk : 0 < k
      · rw [fetchLoop_transport env i k he hk]
        exact ih (i + 1) hrest
      · obtain rfl : k = 0 := by omega
        rw [fetchLoop_transport_zero env i he]
        exact ⟨allNullRecord, rfl⟩
    | response s ra body =>
      rw [he] at h0
      by_cases hs : s = 200
      · rw [fetchLoop_200 env i k s ra body he hs]
        subst hs
        simp only [GoodAttempt, if_pos rfl] at h0
        exact handle200_ok_of_good body h0
      · by_cases hs4 : s = 429
        · subst hs4
          simp only [GoodAttempt, if_neg hs, if_pos rfl] at h0
          cases hp : parseRetryAfter ra with
          | none => rw [hp] at h0; cases h0
          | some n =>
            rw [hp] at h0
            have hn : ¬ n < 0 := by
              have := of_decide_eq_true h0
              omega
            rw [fetchLoop_429 env i k ra body n he hp hn]
            exact ih (i + 1) hrest
        · rw [fetchLoop_other env i k s ra body he hs hs4]
          exact ⟨allNullRecord, rfl⟩

lemma fetchLoop_allNull_of_no200 (env : ℕ → HttpAttempt) :
    ∀ (k i : ℕ), (∀ j, j < k → GoodAttempt (env (i + j)) = true) →
      (∀ j, j < k → Is200 (env (i + j)) = false) →
      (fetchLoop env i k).outcome = FetchOutcome.ok allNullRecord := by
  intro k
  induction k with
  | zero => intro i _ _; rfl
  | succ k ih =>
    intro i h h2
    have h0 : GoodAttempt (env i) = true := by simpa using h 0 (Nat.succ_pos k)
    have h20 : Is200 (env i) = false := by simpa using h2 0 (Nat.succ_pos k)
    have hrest : ∀ j, j < k → GoodAttempt (env (i + 1 + j)) = true := by
      intro j hj
      have hh := h (j + 1) (by omega)
      rwa [show i + (j + 1) = i + 1 + j by omega] at hh
    have hrest2 : ∀ j, j < k → Is200 (env (i + 1 + j)) = false := by
      intro j hj
      have hh := h2 (j + 1) (by omega)
      rwa [show i + (j + 1) = i + 1 + j by omega] at hh
    cases he : env i with
    | transportError =>
      by_cases hk : 0 < k
      · rw [fetchLoop_transport env i k he hk]
        exact ih (i + 1) hrest hrest2
      · obtain rfl : k = 0 := by omega
        rw [fetchLoop_transport_zero env i he]
    | response s ra body =>
      rw [he] at h0 h20
      by_cases hs : s = 200
      · subst hs
        simp [Is200] at h20
      · by_cases hs4 : s = 429
        · subst hs4
          simp only [GoodAttempt, if_neg hs, if_pos rfl] at h0
          cases hp : parseRetryAfter ra with
          | none => rw [hp] at h0; cases h0
          | some n =>
            rw [hp] at h0
            have hn : ¬ n < 0 := by
              have := of_decide_eq_true h0
              omega
            rw [fetchLoop_429 env i k ra body n he hp hn]
            exact ih (i + 1) hrest hrest2
        · rw [fetchLoop_other env i k s ra body he hs hs4]

lemma fetch_domain_eq (ident : PyVal) (env : ℕ → HttpAttempt) :
    fetch_publisher_metadata ident "domain" env = fetchLoop env 0 3 := rfl

lemma fetch_id_eq (ident : PyVal) (env : ℕ → HttpAttempt) (n : ℤ)
    (h : pyInt ident = some n) :
    fetch_publisher_metadata ident "id" env = fetchLoop env 0 3 := by
  have e : fetch_publisher_metadata ident "id" env =
      (match pyInt ident with
       | some _ => fetchLoop env 0 MAX_RETRIES
       | Option.none => ⟨FetchOutcome.ok allNullRecord, 0, []⟩) := rfl
  rw [e, h]
  rfl

lemma fetch_id_invalid (ident : PyVal) (env : ℕ → HttpAttempt)
    (h : pyInt ident = Option.none) :
    fetch_publisher_metadata ident "id" env = ⟨FetchOutcome.ok allNullRecord, 0, []⟩ := by
  have e : fetch_publisher_metadata ident "id" env =
      (match pyInt ident with
       | some _ => fetchLoop env 0 MAX_RETRIES
       | Option.none => ⟨FetchOutcome.ok allNullRecord, 0, []⟩) := rfl
  rw [e, h]

lemma fetch_ok_of_good (ident : PyVal) (idt : String) (env : ℕ → HttpAttempt)
    (hwf : ∀ i, i < MAX_RETRIES → GoodAttempt (env i) = true) :
    ∃ r, (fetch_publisher_metadata ident idt env).outcome = FetchOutcome.ok r := by
  have hloop : ∃ r, (fetchLoop env 0 MAX_RETRIES).outcome = FetchOutcome.ok r := by
    refine fetchLoop_ok_of_good env MAX_RETRIES 0 ?_
    intro j hj
    simpa using hwf j hj
  unfold fetch_publisher_metadata
  split
  · split
    · exact hloop
    · exact ⟨allNullRecord, rfl⟩
  · split
    · exact hloop
    · exact ⟨allNullRecord, rfl⟩

lemma fetch_allNull_of_no200 (ident : PyVal) (idt : String) (env : ℕ → HttpAttempt)
    (hwf : ∀ i, i < MAX_RETRIES → GoodAttempt (env i) = true)
    (h2 : ∀ i, i < MAX_RETRIES → Is200 (env i) = false) :
    (fetch_publisher_metadata ident idt env).outcome = FetchOutcome.ok allNullRecord := by
  have hloop : (fetchLoop env 0 MAX_RETRIES).outcome = FetchOutcome.ok allNullRecord := by
    refine fetchLoop_allNull_of_no200 env MAX_RETRIES 0 ?_ ?_
    · intro j hj; simpa using hwf j hj
    · intro j hj; simpa using h2 j hj
  unfold fetch_publisher_metadata
  split
  · split
    · exact hloop
    · rfl
  · split
    · exact hloop
    · rfl

/-! ## Helper lemmas about the rate limiter -/

lemma evictOld_sublist (period now : ℚ) (ts : List ℚ) :
    List.Sublist (evictOld period now ts) ts := by
  induction ts with
  | nil => simp [evictOld]
  | cons t ts ih =>
    simp only [evictOld]
    split
    · exact ih.trans (List.Sublist.cons t (List.Sublist.refl ts))
    · exact List.Sublist.refl _

lemma evictOld_sorted (period now : ℚ) (ts : List ℚ)
    (h : ts.Sorted (· ≤ ·)) : (evictOld period now ts).Sorted (· ≤ ·) :=
  h.sublist (evictOld_sublist period now ts)

lemma mem_evictOld_gt (period now : ℚ) (ts : List ℚ) (hs : ts.Sorted (· ≤ ·)) :
    ∀ t ∈ evictOld period now ts, now - period < t := by
  induction ts with
  | nil => intro t ht; simp [evictOld] at ht
  | cons a ts ih =>
    rw [List.sorted_cons] at hs
    intro t ht
    simp only [evictOld] at ht
    by_cases ha : a ≤ now - period
    · rw [if_pos ha] at ht
      exact ih hs.2 t ht
    · rw [if_neg ha] at ht
      rcases List.mem_cons.mp ht with rfl | h2
      · exact not_le.mp ha
      · have h3 := hs.1 t h2
        have h4 := not_le.mp ha
        linarith

lemma recentCount_evictOld (period now : ℚ) (ts : List ℚ) :
    recentCount period now (evictOld period now ts) = recentCount period now ts := by
  induction ts with
  | nil => rfl
  | cons a ts ih =>
    simp only [evictOld]
    by_cases ha : a ≤ now - period
    · rw [if_pos ha, ih]
      simp only [recentCount, List.filter_cons]
      rw [if_neg]
      intro hcontra
      simp only [decide_eq_true_eq] at hcontra
      linarith
    · rw [if_neg ha]

lemma recentCount_le_length (period now : ℚ) (ts : List ℚ) :
    recentCount period now ts ≤ ts.length :=
  List.length_filter_le _ _

lemma recentCount_mono (period : ℚ) (ts : List ℚ) (n n' : ℚ) (h : n ≤ n') :
    recentCount period n' ts ≤ recentCount period n ts := by
  induction ts with
  | nil => exact le_refl _
  | cons a ts ih =>
    by_cases h1 : n' - a < period
    · have h2 : n - a < period := by linarith
      simp only [recentCount, List.filter_cons]
      rw [if_pos (by simpa using h1), if_pos (by simpa using h2)]
      simpa using ih
    · by_cases h2 : n - a < period
      · simp only [recentCount, List.filter_cons]
        rw [if_neg (by simpa using h1), if_pos (by simpa using h2)]
        simp only [List.length_cons]
        exact le_trans ih (Nat.le_succ _)
      · simp only [recentCount, List.filter_cons]
        rw [if_neg (by simpa using h1), if_neg (by simpa using h2)]
        exact ih

lemma recentCount_eq_length (period now : ℚ) (ts : List ℚ)
    (h : ∀ t ∈ ts, now - t < period) :
    recentCount period now ts = ts.length := by
  unfold recentCount
  rw [List.filter_eq_self.mpr]
  intro a ha
  simpa using h a ha

lemma recentCount_append_one (period now : ℚ) (ts : List ℚ) (t : ℚ) :
    recentCount period now (ts ++ [t]) =
      recentCount period now ts + (if now - t < period then 1 else 0) := by
  unfold recentCount
  rw [List.filter_append, List.length_append]
  congr 1
  by_cases h : now - t < period
  · rw [if_pos h]
    simp [List.filter_cons, h]
  · rw [if_neg h]
    simp [List.filter_cons, h]

lemma waitDelay_nonneg (m : ℕ) (period now : ℚ) (ts : List ℚ) :
    0 ≤ waitDelay m period now ts := by
  cases ts with
  | nil => exact le_refl 0
  | cons t ts =>
    simp only [waitDelay]
    split
    · split
      next h => exact le_of_lt h
      next h => exact le_refl 0
    · exact le_refl 0

lemma countRecent_after_wait (rl : RateLimiter) (now : ℚ)
    (hmax : 1 ≤ rl.max_requests) (hper : 0 < rl.period_seconds)
    (hsort : rl.request_timestamps.Sorted (· ≤ ·))
    (hcnt : countRecent rl now ≤ rl.max_requests) :
    countRecent (wait_if_needed rl now).1 (wait_if_needed rl now).2 < rl.max_requests := by
  obtain ⟨m, p, ts⟩ := rl
  dsimp only at hmax hper hsort hcnt
  have hmem := mem_evictOld_gt p now ts hsort
  have hall : ∀ t ∈ evictOld p now ts, now - t < p := by
    intro t ht
    have := hmem t ht
    linarith
  have hlen : (evictOld p now ts).length ≤ m := by
    have h1 := recentCount_eq_length p now _ hall
    have h2 := recentCount_evictOld p now ts
    simp only [countRecent] at hcnt
    omega
  show recentCount p (now + waitDelay m p now (evictOld p now ts)) (evictOld p now ts) < m
  cases hev : evictOld p now ts with
  | nil =>
    simp only [recentCount, List.filter_nil, List.length_nil]
    omega
  | cons t0 rest =>
    rw [hev] at hlen
    simp only [List.length_cons] at hlen
    by_cases hm : m ≤ rest.length + 1
    · have ht0 : now - p < t0 := by
        refine hmem t0 ?_
        rw [hev]
        exact List.mem_cons_self t0 rest
      have hw : waitDelay m p now (t0 :: rest) = t0 - (now - p) := by
        simp only [waitDelay]
        rw [if_pos hm, if_pos (by linarith)]
      rw [hw]
      have hnow : now + (t0 - (now - p)) = t0 + p := by ring
      rw [hnow]
      have hstep : recentCount p (t0 + p) (t0 :: rest) = recentCount p (t0 + p) rest := by
        simp only [recentCount, List.filter_cons]
        rw [if_neg]
        intro hcontra
        simp only [decide_eq_true_eq] at hcontra
        linarith
      rw [hstep]
      have := recentCount_le_length p (t0 + p) rest
      omega
    · have hw : waitDelay m p now (t0 :: rest) = 0 := by
        simp only [waitDelay]
        rw [if_neg hm]
      rw [hw, add_zero]
      have := recentCount_le_length p now (t0 :: rest)
      simp only [List.length_cons] at this
      omega

lemma step_max_eq (rl : RateLimiter) (a : ℚ) :
    (record_request (wait_if_needed rl a).1 (wait_if_needed rl a).2).max_requests =
      rl.max_requests := rfl

lemma step_period_eq (rl : RateLimiter) (a : ℚ) :
    (record_request (wait_if_needed rl a).1 (wait_if_needed rl a).2).period_seconds =
      rl.period_seconds := rfl

lemma step_invariant (rl : RateLimiter) (a : ℚ)
    (hmax : 1 ≤ rl.max_requests) (hper : 0 < rl.period_seconds)
    (hsort : rl.request_timestamps.Sorted (· ≤ ·))
    (hbound : ∀ t ∈ rl.request_timestamps, t ≤ a)
    (hcnt : ∀ u, a ≤ u → countRecent rl u ≤ rl.max_requests) :
    a ≤ (wait_if_needed rl a).2 ∧
    (record_request (wait_if_needed rl a).1
        (wait_if_needed rl a).2).request_timestamps.Sorted (· ≤ ·) ∧
    (∀ t ∈ (record_request (wait_if_needed rl a).1
        (wait_if_needed rl a).2).request_timestamps, t ≤ (wait_if_needed rl a).2) ∧
    (∀ u, (wait_if_needed rl a).2 ≤ u →
      countRecent (record_request (wait_if_needed rl a).1 (wait_if_needed rl a).2) u ≤
        rl.max_requests) := by
  have hcount := countRecent_after_wait rl a hmax hper hsort (hcnt a (le_refl a))
  obtain ⟨m, p, ts⟩ := rl
  dsimp only at hmax hper hsort hbound hcnt hcount ⊢
  have hdel := waitDelay_nonneg m p a (evictOld p a ts)
  have hle : a ≤ a + waitDelay m p a (evictOld p a ts) := by linarith
  have hsub := evictOld_sublist p a ts
  have hboundev : ∀ t ∈ evictOld p a ts, t ≤ a := fun t ht => hbound t (hsub.subset ht)
  refine ⟨hle, ?_, ?_, ?_⟩
  · show (evictOld p a ts ++ [a + waitDelay m p a (evictOld p a ts)]).Sorted (· ≤ ·)
    refine List.pairwise_append.mpr
      ⟨evictOld_sorted p a ts hsort, List.sorted_singleton _, ?_⟩
    intro x hx y hy
    simp only [List.mem_singleton] at hy
    subst hy
    exact le_trans (hboundev x hx) hle
  · show ∀ t ∈ evictOld p a ts ++ [a + waitDelay m p a (evictOld p a ts)],
      t ≤ a + waitDelay m p a (evictOld p a ts)
    intro t ht
    rcases List.mem_append.mp ht with h1 | h1
    · exact le_trans (hboundev t h1) hle
    · simp only [List.mem_singleton] at h1
      subst h1
      exact le_refl _
  · intro u hu
    show recentCount p u (evictOld p a ts ++ [a + waitDelay m p a (evictOld p a ts)]) ≤ m
    have h1 : recentCount p u (evictOld p a ts ++ [a + waitDelay m p a (evictOld p a ts)]) ≤
        recentCount p (a + waitDelay m p a (evictOld p a ts))
          (evictOld p a ts ++ [a + waitDelay m p a (evictOld p a ts)]) :=
      recentCount_mono p _ _ u hu
    have h2 : recentCount p (a + waitDelay m p a (evictOld p a ts))
        (evictOld p a ts ++ [a + waitDelay m p a (evictOld p a ts)]) =
        recentCount p (a + waitDelay m p a (evictOld p a ts)) (evictOld p a ts) + 1 := by
      rw [recentCount_append_one]
      rw [if_pos (by simp [hper])]
    have h3 : recentCount p (a + waitDelay m p a (evictOld p a ts)) (evictOld p a ts) < m :=
      hcount
    omega

lemma runRequests_invariant (ds : List ℚ) :
    ∀ (rl : RateLimiter) (now : ℚ),
      1 ≤ rl.max_requests → 0 < rl.period_seconds →
      (∀ d ∈ ds, 0 ≤ d) →
      rl.request_timestamps.Sorted (· ≤ ·) →
      (∀ t ∈ rl.request_timestamps, t ≤ now) →
      (∀ u, now ≤ u → countRecent rl u ≤ rl.max_requests) →
      ∀ u, (runRequests rl now ds).2 ≤ u →
        countRecent (runRequests rl now ds).1 u ≤ rl.max_requests := by
  induction ds with
  | nil =>
    intro rl now hmax hper hds hsort hbound hcnt u hu
    exact hcnt u hu
  | cons d ds ih =>
    intro rl now hmax hper hds hsort hbound hcnt u hu
    have hd : 0 ≤ d := hds d (List.mem_cons_self d ds)
    have hbound2 : ∀ t ∈ rl.request_timestamps, t ≤ now + d := by
      intro t ht
      have := hbound t ht
      linarith
    have hcnt2 : ∀ v, now + d ≤ v → countRecent rl v ≤ rl.max_requests := by
      intro v hv
      exact hcnt v (by linarith)
    obtain ⟨hle, hsort3, hbound3, hcnt3⟩ :=
      step_invariant rl (now + d) hmax hper hsort hbound2 hcnt2
    simp only [runRequests] at hu ⊢
    exact ih (record_request (wait_if_needed rl (now + d)).1 (wait_if_needed rl (now + d)).2)
      (wait_if_needed rl (now + d)).2 hmax hper
      (fun x hx => hds x (List.mem_cons_of_mem d hx)) hsort3 hbound3 hcnt3 u hu

/-! ## Helper lemmas about the orchestrator and response shapes -/

lemma is429Delay_spec (a : HttpAttempt) (n : ℤ) (h : is429Delay a = some n) :
    ∃ ra body, a = HttpAttempt.response 429 ra body ∧
      parseRetryAfter ra = some n ∧ ¬ n < 0 := by
  cases a with
  | transportError => simp [is429Delay] at h
  | response s ra body =>
    simp only [is429Delay] at h
    by_cases hs : s = 429
    · subst hs
      rw [if_pos rfl] at h
      cases hp : parseRetryAfter ra with
      | none => simp only [hp] at h; cases h
      | some k =>
        simp only [hp] at h
        by_cases hk : k < 0
        · rw [if_pos hk] at h; cases h
        · rw [if_neg hk] at h
          injection h with h
          subst h
          exact ⟨ra, body, rfl, hp, hk⟩
    · rw [if_neg hs] at h; cases h

lemma handle200_eq_handleObj (body : Json) (kvs : List (String × Json))
    (hfe : firstElem body = Json.obj kvs) :
    handle200 body = handleObj (Json.obj kvs) := by
  cases body with
  | arr xs =>
    cases xs with
    | nil => simp [firstElem] at hfe
    | cons x rest =>
      simp only [firstElem] at hfe
      simp only [handle200, hfe]
  | null => simp [firstElem] at hfe
  | bool b => simp [firstElem] at hfe
  | num q => simp [firstElem] at hfe
  | str s => simp [firstElem] at hfe
  | obj kvs0 =>
    simp only [firstElem] at hfe
    injection hfe with h
    subst h
    rfl

lemma rowUsed_none_of_falsy (hasPub hasDom : Bool) (row : Row) (v : PyVal) (t : String)
    (hsel : rowSelection hasPub hasDom row = some (v, t)) (hf : pyTruthy v = false) :
    rowUsed hasPub hasDom row = Option.none := by
  simp [rowUsed, hsel, hf]

lemma processRow_none (hasPub hasDom : Bool) (env : ℕ → HttpAttempt) (row : Row)
    (hu : rowUsed hasPub hasDom row = Option.none) :
    processRow hasPub hasDom env row =
      Except.ok ⟨allNullRecord, (if hasPub then some row.publisher_id else Option.none),
        (if hasDom then some row.domain else Option.none), false⟩ := by
  unfold processRow
  simp only [hu]

lemma processRow_some_ok (hasPub hasDom : Bool) (env : ℕ → HttpAttempt) (row : Row)
    (v : PyVal) (t : String) (rec : List (String × Json))
    (hu : rowUsed hasPub hasDom row = some (v, t))
    (hf : (fetch_publisher_metadata v t env).outcome = FetchOutcome.ok rec) :
    processRow hasPub hasDom env row =
      Except.ok ⟨rec, (if hasPub then some row.publisher_id else Option.none),
        (if hasDom then some row.domain else Option.none), true⟩ := by
  unfold processRow
  simp only [hu, hf]

lemma processRow_ok_of_good (hasPub hasDom : Bool) (env : ℕ → HttpAttempt) (row : Row)
    (hwf : ∀ i, i < MAX_RETRIES → GoodAttempt (env i) = true) :
    ∃ r, processRow hasPub hasDom env row = Except.ok r ∧
      r.input_publisher_id = (if hasPub then some row.publisher_id else Option.none) ∧
      r.input_domain = (if hasDom then some row.domain else Option.none) := by
  cases hu : rowUsed hasPub hasDom row with
  | none =>
    exact ⟨⟨allNullRecord, (if hasPub then some row.publisher_id else Option.none),
      (if hasDom then some row.domain else Option.none), false⟩,
      processRow_none hasPub hasDom env row hu, rfl, rfl⟩
  | some vt =>
    obtain ⟨v, t⟩ := vt
    obtain ⟨r, hr⟩ := fetch_ok_of_good v t env hwf
    exact ⟨⟨r, (if hasPub then some row.publisher_id else Option.none),
      (if hasDom then some row.domain else Option.none), true⟩,
      processRow_some_ok hasPub hasDom env row v t r hu hr, rfl, rfl⟩

/-! ## Claim theorems -/

/-- Claim C1 (amended): for every identifier and kind, provided every
attempt outcome is digestible (429 headers absent or parsing to a
non-negative integer, 200 bodies projecting without a type error), the
fetch never raises: it returns some record, and when no attempt is an
HTTP 200 the returned record is all-null.  The original claim fails for
malformed response data, see `fetch_raises_on_nonnumeric_retry_after`. -/
theorem fetch_total_on_wellformed_env (identifier : PyVal) (id_type : String)
    (env : ℕ → HttpAttempt)
    (hwf : ∀ i, i < MAX_RETRIES → GoodAttempt (env i) = true) :
    (∃ r, (fetch_publisher_metadata identifier id_type env).outcome = FetchOutcome.ok r) ∧
    ((∀ i, i < MAX_RETRIES → Is200 (env i) = false) →
      (fetch_publisher_metadata identifier id_type env).outcome =
        FetchOutcome.ok allNullRecord) :=
  ⟨fetch_ok_of_good identifier id_type env hwf,
   fun h2 => fetch_allNull_of_no200 identifier id_type env hwf h2⟩

/-- Witness for C1: on three transport failures the fetch returns the
all-null record. -/
theorem fetch_total_on_wellformed_env_witness :
    (fetch_publisher_metadata (PyVal.int 5) "id" envTransport).outcome =
      FetchOutcome.ok allNullRecord :=
  (fetch_total_on_wellformed_env (PyVal.int 5) "id" envTransport
    (fun _ _ => rfl)).2 (fun _ _ => rfl)

/-- Counterexample to C1 as stated: a 429 response whose Retry-After
header is the non-numeric string "soon" makes the fetch raise an
uncaught `ValueError` (source line 99) instead of returning a record. -/
theorem fetch_raises_on_nonnumeric_retry_after :
    (fetch_publisher_metadata (PyVal.int 5) "id" envBadRetryAfter).outcome =
      FetchOutcome.raised := rfl

/-- Claim C3 (amended): when all three attempts are 429 responses whose
Retry-After headers parse to non-negative integers (absent defaulting to
2), the fetch sleeps exactly those parsed durations, uses all
`MAX_RETRIES = 3` attempts without terminating early, and then returns
the all-null record.  The original "absent or invalid" default fails for
invalid headers, see `fetch_429_invalid_header_raises`. -/
theorem fetch_429_retry_after_policy (ident : PyVal) (env : ℕ → HttpAttempt)
    (n0 n1 n2 : ℤ)
    (h0 : is429Delay (env 0) = some n0)
    (h1 : is429Delay (env 1) = some n1)
    (h2 : is429Delay (env 2) = some n2) :
    fetch_publisher_metadata ident "domain" env =
      ⟨FetchOutcome.ok allNullRecord, 3, [n0, n1, n2]⟩ := by
  obtain ⟨ra0, b0, he0, hp0, hn0⟩ := is429Delay_spec (env 0) n0 h0
  obtain ⟨ra1, b1, he1, hp1, hn1⟩ := is429Delay_spec (env 1) n1 h1
  obtain ⟨ra2, b2, he2, hp2, hn2⟩ := is429Delay_spec (env 2) n2 h2
  rw [fetch_domain_eq]
  have L2 : fetchLoop env 2 1 = ⟨FetchOutcome.ok allNullRecord, 1, [n2]⟩ := by
    show fetchLoop env 2 (0 + 1) = _
    rw [fetchLoop_429 env 2 0 ra2 b2 n2 he2 hp2 hn2]
    rfl
  have L1 : fetchLoop env 1 2 = ⟨FetchOutcome.ok allNullRecord, 2, [n1, n2]⟩ := by
    show fetchLoop env 1 (1 + 1) = _
    rw [fetchLoop_429 env 1 1 ra1 b1 n1 he1 hp1 hn1]
    rw [show (1 : ℕ) + 1 = 2 from rfl, L2]
  show fetchLoop env 0 (2 + 1) = _
  rw [fetchLoop_429 env 0 2 ra0 b0 n0 he0 hp0 hn0]
  rw [show (0 : ℕ) + 1 = 1 from rfl, L1]

/-- Witness for C3: three 429s with `Retry-After: 5` give three attempts
and three 5-second sleeps before the all-null record. -/
theorem fetch_429_retry_after_policy_witness :
    fetch_publisher_metadata (PyVal.str "x.com") "domain" env429five =
      ⟨FetchOutcome.ok allNullRecord, 3, [5, 5, 5]⟩ :=
  fetch_429_retry_after_policy (PyVal.str "x.com") env429five 5 5 5 rfl rfl rfl

/-- Counterexample to C3 as stated: an invalid (non-numeric) Retry-After
header raises instead of defaulting to 2 seconds. -/
theorem fetch_429_invalid_header_raises :
    (fetch_publisher_metadata (PyVal.str "a.com") "domain" envBadRetryAfterB).outcome =
      FetchOutcome.raised := rfl

/-- Claim C7: when all three attempts fail at the transport level the
fetch sleeps the fixed 2-second default between attempts (two sleeps for
three attempts), issues exactly `MAX_RETRIES = 3` requests, and returns
the all-null record. -/
theorem fetch_transport_failure_retries (ident : PyVal) (env : ℕ → HttpAttempt)
    (h : ∀ i, i < MAX_RETRIES → env i = HttpAttempt.transportError) :
    fetch_publisher_metadata ident "domain" env =
      ⟨FetchOutcome.ok allNullRecord, 3, [DEFAULT_RETRY_DELAY, DEFAULT_RETRY_DELAY]⟩ := by
  have he0 := h 0 (by norm_num [MAX_RETRIES])
  have he1 := h 1 (by norm_num [MAX_RETRIES])
  have he2 := h 2 (by norm_num [MAX_RETRIES])
  rw [fetch_domain_eq]
  have L2 : fetchLoop env 2 1 = ⟨FetchOutcome.ok allNullRecord, 1, []⟩ := by
    show fetchLoop env 2 (0 + 1) = _
    exact fetchLoop_transport_zero env 2 he2
  have L1 : fetchLoop env 1 2 =
      ⟨FetchOutcome.ok allNullRecord, 2, [DEFAULT_RETRY_DELAY]⟩ := by
    show fetchLoop env 1 (1 + 1) = _
    rw [fetchLoop_transport env 1 1 he1 (by norm_num)]
    rw [show (1 : ℕ) + 1 = 2 from rfl, L2]
  show fetchLoop env 0 (2 + 1) = _
  rw [fetchLoop_transport env 0 2 he0 (by norm_num)]
  rw [show (0 : ℕ) + 1 = 1 from rfl, L1]

/-- Witness for C7 at a concrete all-transport-failure environment. -/
theorem fetch_transport_failure_retries_witness :
    fetch_publisher_metadata (PyVal.str "x.com") "domain" envTransport =
      ⟨FetchOutcome.ok allNullRecord, 3, [DEFAULT_RETRY_DELAY, DEFAULT_RETRY_DELAY]⟩ :=
  fetch_transport_failure_retries (PyVal.str "x.com") envTransport (fun _ _ => rfl)

/-- Claim C8: an `id`-kind identifier that does not parse as an integer
short-circuits to the all-null record with zero network attempts and no
sleeps, for every environment. -/
theorem fetch_invalid_id_short_circuits (identifier : PyVal) (env : ℕ → HttpAttempt)
    (h : pyInt identifier = Option.none) :
    fetch_publisher_metadata identifier "id" env =
      ⟨FetchOutcome.ok allNullRecord, 0, []⟩ :=
  fetch_id_invalid identifier env h

/-- Witness for C8 at the unparseable identifier "abc". -/
theorem fetch_invalid_id_short_circuits_witness :
    fetch_publisher_metadata (PyVal.str "abc") "id" envTransport =
      ⟨FetchOutcome.ok allNullRecord, 0, []⟩ :=
  fetch_invalid_id_short_circuits (PyVal.str "abc") envTransport rfl

/-- Claim C9: an HTTP status other than 200 and 429 on the first attempt
is terminal: exactly one request is issued, no sleeps happen, and the
all-null record is returned. -/
theorem fetch_other_status_terminal (ident : PyVal) (env : ℕ → HttpAttempt)
    (s : ℕ) (ra : Option String) (body : Json)
    (he : env 0 = HttpAttempt.response s ra body)
    (h200 : ¬ s = 200) (h429 : ¬ s = 429) :
    fetch_publisher_metadata ident "domain" env =
      ⟨FetchOutcome.ok allNullRecord, 1, []⟩ := by
  rw [fetch_domain_eq]
  show fetchLoop env 0 (2 + 1) = _
  exact fetchLoop_other env 0 2 s ra body he h200 h429

/-- Witness for C9 at a concrete 404 environment. -/
theorem fetch_other_status_terminal_witness :
    fetch_publisher_metadata (PyVal.str "x.com") "domain" env404 =
      ⟨FetchOutcome.ok allNullRecord, 1, []⟩ :=
  fetch_other_status_terminal (PyVal.str "x.com") env404 404 Option.none Json.null
    rfl (by norm_num) (by norm_num)

/-- Claim C6 (amended): a 200 on the first attempt is terminal (one
request, no sleeps).  An empty-list body yields the all-null record; a
non-empty list contributes its first element, any other body is used
directly (`firstElem`); when that value is an object it is projected
onto `FIELDS` with missing keys null, and a categories value that is a
list of strings is joined with "; ".  The original claim fails when the
categories list holds a non-string (or the body is not an object): the
projection raises, see `fetch_200_nonstring_categories_raises`. -/
theorem fetch_200_response_projection (ident : PyVal) (env : ℕ → HttpAttempt)
    (ra : Option String) (body : Json)
    (he : env 0 = HttpAttempt.response 200 ra body) :
    (body = Json.arr [] →
      fetch_publisher_metadata ident "domain" env =
        ⟨FetchOutcome.ok allNullRecord, 1, []⟩) ∧
    (∀ kvs ss, firstElem body = Json.obj kvs →
      jsonLookup kvs "categories" = Json.arr (ss.map Json.str) →
      fetch_publisher_metadata ident "domain" env =
        ⟨FetchOutcome.ok (setField (projectFields kvs) "categories"
          (Json.str (String.intercalate "; " ss))), 1, []⟩) ∧
    (∀ kvs, firstElem body = Json.obj kvs →
      (∀ xs, jsonLookup kvs "categories" ≠ Json.arr xs) →
      fetch_publisher_metadata ident "domain" env =
        ⟨FetchOutcome.ok (projectFields kvs), 1, []⟩) := by
  have hstep : fetch_publisher_metadata ident "domain" env = ⟨handle200 body, 1, []⟩ := by
    rw [fetch_domain_eq]
    show fetchLoop env 0 (2 + 1) = _
    exact fetchLoop_200 env 0 2 200 ra body he rfl
  refine ⟨?_, ?_, ?_⟩
  · intro hb
    subst hb
    rw [hstep]
    rfl
  · intro kvs ss hfe hcat
    rw [hstep, handle200_eq_handleObj body kvs hfe, handleObj_of_strCats kvs ss hcat]
  · intro kvs hfe hnc
    rw [hstep, handle200_eq_handleObj body kvs hfe, handleObj_of_nonlist_cats kvs hnc]

/-- Witness for C6: the spec's round-trip example yields a record whose
categories field is the joined string "News; Tech". -/
theorem fetch_200_response_projection_witness :
    fetch_publisher_metadata (PyVal.str "x.com") "domain" envAcme =
      ⟨FetchOutcome.ok (setField (projectFields acmeKvs) "categories"
        (Json.str (String.intercalate "; " ["News", "Tech"]))), 1, []⟩ ∧
    jsonLookup (setField (projectFields acmeKvs) "categories"
      (Json.str (String.intercalate "; " ["News", "Tech"]))) "categories" =
      Json.str "News; Tech" :=
  ⟨(fetch_200_response_projection (PyVal.str "x.com") envAcme Option.none
      (Json.obj acmeKvs) rfl).2.1 acmeKvs ["News", "Tech"] rfl rfl, rfl⟩

/-- Counterexample to C6 as stated: a 200 whose categories list contains
the number 1 raises a `TypeError` from `"; ".join` (source line 95)
instead of returning a joined record. -/
theorem fetch_200_nonstring_categories_raises :
    (fetch_publisher_metadata (PyVal.str "x.com") "domain" envBadCats).outcome =
      FetchOutcome.raised := rfl

/-- Claim C4 (amended): selection follows `pd.notna` priority - a
present (non-NaN) domain cell is always selected first with kind
"domain", a present publisher id is selected only when the domain cell
is absent - and the selected value is actually fetched only when it is
truthy; a falsy selected value leaves the row with no usable identifier.
The original "otherwise use the id" fails when a present empty-string
domain shadows a valid id, see `empty_domain_shadows_publisher_id`. -/
theorem row_identifier_selection (hasPub hasDom : Bool) (row : Row) :
    (∀ d, hasDom = true → row.domain = some d → pyTruthy d = true →
      rowUsed hasPub hasDom row = some (d, "domain")) ∧
    ((if hasDom then row.domain else Option.none) = Option.none →
      ∀ p, hasPub = true → row.publisher_id = some p → pyTruthy p = true →
        rowUsed hasPub hasDom row = some (p, "id")) ∧
    (∀ v t, rowSelection hasPub hasDom row = some (v, t) → pyTruthy v = false →
      rowUsed hasPub hasDom row = Option.none) ∧
    (rowSelection hasPub hasDom row = Option.none →
      rowUsed hasPub hasDom row = Option.none) := by
  refine ⟨?_, ?_, ?_, ?_⟩
  · intro d hdom hd htr
    subst hdom
    simp [rowUsed, rowSelection, hd, htr]
  · intro hnone p hpub hp htr
    subst hpub
    simp [rowUsed, rowSelection, hnone, hp, htr]
  · intro v t hsel hf
    exact rowUsed_none_of_falsy hasPub hasDom row v t hsel hf
  · intro hsel
    simp [rowUsed, hsel]

/-- Witness for C4: with both cells present, the domain wins. -/
theorem row_identifier_selection_witness :
    rowUsed true true ⟨some (PyVal.int 42), some (PyVal.str "x.com")⟩ =
      some (PyVal.str "x.com", "domain") :=
  (row_identifier_selection true true
    ⟨some (PyVal.int 42), some (PyVal.str "x.com")⟩).1 (PyVal.str "x.com") rfl rfl rfl

/-- Counterexample to C4 as stated: a present empty-string domain is
selected by `pd.notna` priority but is falsy, so a row that also carries
the valid id 42 ends with no usable identifier instead of being fetched
by id. -/
theorem empty_domain_shadows_publisher_id :
    rowUsed true true ⟨some (PyVal.int 42), some (PyVal.str "")⟩ = Option.none ∧
    rowUsed true true ⟨some (PyVal.int 42), some (PyVal.str "")⟩ ≠
      some (PyVal.int 42, "id") := by
  refine ⟨rfl, ?_⟩
  intro h
  rw [show rowUsed true true ⟨some (PyVal.int 42), some (PyVal.str "")⟩ =
    Option.none from rfl] at h
  cases h

/-- Claim C10: a row whose selected identifier is falsy (id 0, empty
domain or empty id string) yields the all-null record with the
passthrough cells attached and `requested = false`: neither
`record_request` nor the fetch is performed, whatever the environment. -/
theorem falsy_identifier_row_skipped (hasPub hasDom : Bool) (row : Row)
    (env : ℕ → HttpAttempt) (v : PyVal) (t : String)
    (hsel : rowSelection hasPub hasDom row = some (v, t))
    (hfalsy : pyTruthy v = false) :
    processRow hasPub hasDom env row =
      Except.ok ⟨allNullRecord, (if hasPub then some row.publisher_id else Option.none),
        (if hasDom then some row.domain else Option.none), false⟩ :=
  processRow_none hasPub hasDom env row
    (rowUsed_none_of_falsy hasPub hasDom row v t hsel hfalsy)

/-- Witness for C10: an empty-string domain next to the valid id 42
skips the network and emits the all-null record. -/
theorem falsy_identifier_row_skipped_witness :
    processRow true true envTransport ⟨some (PyVal.int 42), some (PyVal.str "")⟩ =
      Except.ok ⟨allNullRecord, some (some (PyVal.int 42)),
        some (some (PyVal.str "")), false⟩ :=
  falsy_identifier_row_skipped true true ⟨some (PyVal.int 42), some (PyVal.str "")⟩
    envTransport (PyVal.str "") "domain" rfl rfl

/-- Claim C5 (amended): provided every row's fetch completes without an
escaping exception (all attempt outcomes digestible), the batch loop
emits exactly one result per input row, in input order, each carrying
the row's raw `publisher_id` and `domain` cells as passthrough fields;
no row's all-null failure disturbs any other row.  The original claim
fails when a fetch raises: the whole batch aborts, see
`processRows_aborts_when_fetch_raises`. -/
theorem processRows_one_output_per_row (hasPub hasDom : Bool) (rows : List Row)
    (envs : ℕ → ℕ → HttpAttempt) (i : ℕ)
    (hwf : ∀ j k, k < MAX_RETRIES → GoodAttempt (envs j k) = true) :
    ∃ out, processRows hasPub hasDom envs rows i = Except.ok out ∧
      out.length = rows.length ∧
      ∀ k row, rows[k]? = some row →
        ∃ r, processRow hasPub hasDom (envs (i + k)) row = Except.ok r ∧
          out[k]? = some r ∧
          r.input_publisher_id = (if hasPub then some row.publisher_id else Option.none) ∧
          r.input_domain = (if hasDom then some row.domain else Option.none) := by
  induction rows generalizing i with
  | nil =>
    refine ⟨[], rfl, rfl, ?_⟩
    intro k row hk
    simp at hk
  | cons row rest ih =>
    obtain ⟨r0, hr0, hpu, hdo⟩ := processRow_ok_of_good hasPub hasDom (envs i) row (hwf i)
    obtain ⟨out, hout, hlen, hidx⟩ := ih (i + 1)
    refine ⟨r0 :: out, ?_, by simpa using hlen, ?_⟩
    · simp only [processRows, hr0, hout]
    · intro k r hk
      cases k with
      | zero =>
        simp only [List.getElem?_cons_zero] at hk
        injection hk with hk
        subst hk
        refine ⟨r0, ?_, by simp, hpu, hdo⟩
        simpa using hr0
      | succ k =>
        simp only [List.getElem?_cons_succ] at hk
        obtain ⟨r1, h1, h2, h3, h4⟩ := hidx k r hk
        refine ⟨r1, ?_, ?_, h3, h4⟩
        · rwa [show i + (k + 1) = i + 1 + k by omega]
        · simpa using h2

/-- Witness for C5 at a one-row batch whose attempts all fail at the
transport level. -/
theorem processRows_one_output_per_row_witness :
    ∃ out, processRows true true envsTransport rowsOne 0 = Except.ok out ∧
      out.length = rowsOne.length ∧
      ∀ k row, rowsOne[k]? = some row →
        ∃ r, processRow true true (envsTransport (0 + k)) row = Except.ok r ∧
          out[k]? = some r ∧
          r.input_publisher_id = (if true then some row.publisher_id else Option.none) ∧
          r.input_domain = (if true then some row.domain else Option.none) :=
  processRows_one_output_per_row true true rowsOne envsTransport 0 (fun _ _ _ => rfl)

/-- Counterexample to C5 as stated: in a two-row batch whose second
row's attempt carries a non-numeric Retry-After header, the escaping
exception aborts the loop and no output at all is produced - not even
the first row's record. -/
theorem processRows_aborts_when_fetch_raises :
    processRows true true envsCex rowsCex 0 = Except.error () := rfl

/-- Claim C2: the sliding-window invariant.  For every run of the
wait-then-record protocol started on a fresh limiter (positive period,
cap at least one, non-negative inter-arrival delays), at the end of the
run - and hence, by monotonicity of ages, at every instant from then
on - at most `max_requests` recorded timestamps have age strictly less
than `period_seconds`.  Since every prefix of a run is a run, the bound
holds at every intermediate instant of every run. -/
theorem rateLimiter_window_invariant (maxR : ℕ) (period now0 t : ℚ) (ds : List ℚ)
    (hmax : 1 ≤ maxR) (hper : 0 < period) (hds : ∀ d ∈ ds, 0 ≤ d)
    (ht : (runRequests ⟨maxR, period, []⟩ now0 ds).2 ≤ t) :
    countRecent (runRequests ⟨maxR, period, []⟩ now0 ds).1 t ≤ maxR := by
  refine runRequests_invariant ds ⟨maxR, period, []⟩ now0 hmax hper hds
    List.sorted_nil ?_ ?_ t ht
  · intro x hx
    simp at hx
  · intro u _
    simp [countRecent, recentCount]

/-- Witness for C2: a two-request burst against a limiter allowing one
request per unit period; the second call waits until the first
timestamp ages out, and the window bound holds at the final instant. -/
theorem rateLimiter_window_invariant_witness :
    countRecent (runRequests ⟨1, 1, []⟩ 0 [0, 0]).1 1 ≤ 1 := by
  refine rateLimiter_window_invariant 1 1 0 1 [0, 0] (le_refl 1) (by norm_num) ?_ ?_
  · intro d hd
    rcases List.mem_cons.mp hd with rfl | hd
    · exact le_refl 0
    · rcases List.mem_cons.mp hd with rfl | hd
      · exact le_refl 0
      · simp at hd
  · rw [show (runRequests ⟨1, 1, []⟩ 0 [0, 0]).2 = 1 from by
      norm_num [runRequests, wait_if_needed, record_request, evictOld, waitDelay]]
